import Mathlib

/-!
Verification of the `time_unit` library (`src/time_unit/__init__.py`).

The Python code is shallowly embedded: `datetime.date` becomes the `Date`
structure below together with the proleptic-Gregorian calendar arithmetic
that CPython's `datetime` module implements (calendar successor /
predecessor, ordinal day count, Monday-based weekday).  Python operations
that can raise (`date(...)` construction, `date ± timedelta`) return
`Option`/`Except` values; `none` / `.error` model the raised exception.
Machine integers are `Nat` (all quantities involved are non-negative).
-/

/-- One proleptic-Gregorian calendar date, as CPython's `datetime.date`:
a triple of year, month and day fields. -/
structure Date where
  year : Nat
  month : Nat
  day : Nat
deriving DecidableEq

/-- Gregorian leap-year rule, as used by CPython's `datetime` module:
divisible by 4, and not by 100 unless also by 400. -/
abbrev isLeap (y : Nat) : Prop := y % 4 = 0 ∧ (y % 100 ≠ 0 ∨ y % 400 = 0)

theorem isLeap_iff (y : Nat) : isLeap y ↔ (y % 4 = 0 ∧ (y % 100 ≠ 0 ∨ y % 400 = 0)) :=
  Iff.rfl

/-- Number of days in month `m` of year `y` (CPython `_days_in_month`). -/
def daysInMonth (y m : Nat) : Nat :=
  match m with
  | 2 => if isLeap y then 29 else 28
  | 4 | 6 | 9 | 11 => 30
  | _ => 31

/-- The field ranges accepted by CPython's `date` constructor:
`MINYEAR = 1 ≤ year ≤ 9999 = MAXYEAR`, `1 ≤ month ≤ 12`,
`1 ≤ day ≤ days in that month`. -/
abbrev Date.Valid (d : Date) : Prop :=
  1 ≤ d.year ∧ d.year ≤ 9999 ∧ 1 ≤ d.month ∧ d.month ≤ 12 ∧
    1 ≤ d.day ∧ d.day ≤ daysInMonth d.year d.month

/-- `datetime.date(y, m, d)`: yields the date when the fields are in range,
`none` for the `ValueError` CPython raises otherwise. -/
def mkDate? (y m d : Nat) : Option Date :=
  if Date.Valid ⟨y, m, d⟩ then some ⟨y, m, d⟩ else none

/-- `d + timedelta(days=1)`, modelled as the calendar successor.  `none`
models the `OverflowError` raised past `date.max = 9999-12-31`. -/
def Date.succ? (d : Date) : Option Date :=
  if d.day < daysInMonth d.year d.month then some ⟨d.year, d.month, d.day + 1⟩
  else if d.month < 12 then some ⟨d.year, d.month + 1, 1⟩
  else if d.year < 9999 then some ⟨d.year + 1, 1, 1⟩
  else none

/-- `d - timedelta(days=1)`, modelled as the calendar predecessor.  `none`
models the `OverflowError` raised below `date.min = 0001-01-01`. -/
def Date.pred? (d : Date) : Option Date :=
  if 1 < d.day then some ⟨d.year, d.month, d.day - 1⟩
  else if 1 < d.month then some ⟨d.year, d.month - 1, daysInMonth d.year (d.month - 1)⟩
  else if 1 < d.year then some ⟨d.year - 1, 12, 31⟩
  else none

/-- `d + timedelta(days=n)` for `n ≥ 0`, as `n` calendar successors. -/
def Date.addDays? : Date → Nat → Option Date
  | d, 0 => some d
  | d, n + 1 => d.succ?.bind (Date.addDays? · n)

/-- `d - timedelta(days=n)` for `n ≥ 0`, as `n` calendar predecessors. -/
def Date.subDays? : Date → Nat → Option Date
  | d, 0 => some d
  | d, n + 1 => d.pred?.bind (Date.subDays? · n)

/-- Cumulative day count of the months before month `m` in a common year
(CPython `_DAYS_BEFORE_MONTH`). -/
def daysBeforeMonthTable (m : Nat) : Nat :=
  match m with
  | 1 => 0 | 2 => 31 | 3 => 59 | 4 => 90 | 5 => 120 | 6 => 151
  | 7 => 181 | 8 => 212 | 9 => 243 | 10 => 273 | 11 => 304 | 12 => 334
  | _ => 365

/-- Days before month `m` of year `y` (CPython `_days_before_month`). -/
def daysBeforeMonth (y m : Nat) : Nat :=
  daysBeforeMonthTable m + (if 2 < m ∧ isLeap y then 1 else 0)

/-- Days before January 1 of year `y` (CPython `_days_before_year`). -/
def daysBeforeYear (y : Nat) : Nat :=
  365 * (y - 1) + (y - 1) / 4 - (y - 1) / 100 + (y - 1) / 400

/-- `date.toordinal()`: day number in the proleptic Gregorian calendar,
with `0001-01-01` having ordinal 1 (CPython `_ymd2ord`). -/
def Date.toOrdinal (d : Date) : Nat :=
  daysBeforeYear d.year + daysBeforeMonth d.year d.month + d.day

/-- `date.weekday()`: 0 = Monday … 6 = Sunday (CPython: `(toordinal + 6) % 7`). -/
def Date.weekday (d : Date) : Nat := (d.toOrdinal + 6) % 7

/-- Python's `date.__le__`: field-tuple comparison `(y, m, d) ≤ (y', m', d')`. -/
abbrev Date.le (a b : Date) : Prop :=
  a.year < b.year ∨ (a.year = b.year ∧
    (a.month < b.month ∨ (a.month = b.month ∧ a.day ≤ b.day)))

-- Sanity checks on the calendar arithmetic (CPython reference values).
example : Date.toOrdinal ⟨1, 1, 1⟩ = 1 := by decide
example : Date.toOrdinal ⟨2021, 1, 1⟩ = 737791 := by decide
example : Date.weekday ⟨2021, 1, 1⟩ = 4 := by decide
example : Date.subDays? ⟨2021, 1, 1⟩ 4 = some ⟨2020, 12, 28⟩ := by decide
example : Date.succ? ⟨2020, 2, 28⟩ = some ⟨2020, 2, 29⟩ := by decide
example : Date.succ? ⟨2021, 2, 28⟩ = some ⟨2021, 3, 1⟩ := by decide

/-! ## The kind registry (`TimeunitKindMeta` and the five concrete kinds) -/

/-- The five `TimeunitKind` subclasses defined in `src/time_unit/__init__.py`
(`Year`, `Quarter`, `Month`, `Week`, `Day`).  The base class itself has
`kind_int = None` and is never registered. -/
inductive Kind where
  | year
  | quarter
  | month
  | week
  | day
deriving DecidableEq

/-- The `kind_int` class attribute of each registered kind. -/
def Kind.kind_int : Kind → Nat
  | .year => 1
  | .quarter => 3
  | .month => 5
  | .week => 7
  | .day => 9

/-- `TimeunitKindMeta._pre_registered`: the kinds, in class-definition
order. -/
def kindRegistry : List Kind := [.year, .quarter, .month, .week, .day]

/-- `TimeunitKind.unit_register[code]`: dictionary lookup by `kind_int`;
`none` models the `KeyError` for an unregistered code. -/
def lookupKind (code : Nat) : Option Kind :=
  kindRegistry.find? (fun k => k.kind_int == code)

/-- `TimeunitKindMeta.multiplier` as a function of the registered codes:
`10 ** math.ceil(math.log10(max(1, *codes)))`.  `Nat.clog 10` is the exact
value of `ceil ∘ log10` on positive integers, which the float computation
returns for all code magnitudes in scope. -/
def registryMultiplier (codes : List Nat) : Nat :=
  10 ^ Nat.clog 10 (codes.foldl Nat.max 1)

/-- The cached multiplier for the registry of the five built-in kinds. -/
def multiplier : Nat := registryMultiplier (kindRegistry.map Kind.kind_int)

/-- `TimeunitKindMeta.truncate` as dispatched on each concrete kind:
`Year`, `Month` and `Day` truncate through the `strftime`/`strptime`
round-trip of their `formatter` pattern.  `strftime` renders `%Y` without
zero-padding (`date(5,1,1).strftime("%Y") == "5"`) while `strptime`
matches `%Y` against exactly four digits, so the round-trip parses back
only for years 1000-9999 and raises `ValueError` (`none`) for every date
with year below 1000; when it succeeds its arithmetic effect is: `"%Y"`
keeps only the year, `"%YM%m"` year and month, `"%Y-%m-%d"` everything.
`Quarter` and `Week` override `truncate` with the direct arithmetic shown
in the source and accept every date; `Week` subtracts `dt.weekday()`
days, which is the only branch that performs `date` arithmetic. -/
def Kind.truncate : Kind → Date → Option Date
  | .year, d => if 1000 ≤ d.year then some ⟨d.year, 1, 1⟩ else none
  | .quarter, d => some ⟨d.year, 3 * ((d.month - 1) / 3) + 1, 1⟩
  | .month, d => if 1000 ≤ d.year then some ⟨d.year, d.month, 1⟩ else none
  | .week, d => d.subDays? d.weekday
  | .day, d => if 1000 ≤ d.year then some d else none

/-- The `_next` classmethod of each concrete kind (start of the following
period, given an already-truncated date).  `date(...)` constructions are
`mkDate?`, so crossing `MAXYEAR` yields `none` (`ValueError`). -/
def Kind._next : Kind → Date → Option Date
  | .year, d => mkDate? (d.year + 1) 1 1
  | .quarter, d =>
    let q2 := 3 * (d.month + 2) / 3 + 1
    if q2 = 13 then mkDate? (d.year + 1) 1 1 else mkDate? d.year q2 1
  | .month, d =>
    let m2 := d.month + 1
    if m2 > 12 then mkDate? (d.year + 1) 1 1 else mkDate? d.year m2 1
  | .week, d => d.addDays? 7
  | .day, d => d.succ?

/-- `TimeunitKindMeta.last_day`: `cls._next(dt) - timedelta(days=1)`. -/
def Kind.last_day (k : Kind) (d : Date) : Option Date :=
  (k._next d).bind Date.pred?

/-- Zero-padded two-digit rendering, as `strftime` `%m`/`%d`/`%W`. -/
def pad2 (n : Nat) : String :=
  if n < 10 then "0" ++ toString n else toString n

/-- The `%W` week number produced by `strftime` for the `Week` formatter:
days in a new year preceding the first Monday are week 0 (glibc rule
`(yday + 7 - monday_based_wday) / 7` with `yday` zero-based). -/
def weekNumberW (d : Date) : Nat :=
  (daysBeforeMonth d.year d.month + d.day - 1 + 7 - d.weekday) / 7

/-- `to_str` of each kind: `Quarter` overrides it with the f-string
`f"{dt.year}Q{dt.month//3}"`; the others render their `formatter` pattern
(`"%Y"`, `"%YM%m"`, `"%YW%W"`, `"%Y-%m-%d"`). -/
def Kind.to_str : Kind → Date → String
  | .year, d => toString d.year
  | .quarter, d => toString d.year ++ "Q" ++ toString (d.month / 3)
  | .month, d => toString d.year ++ "M" ++ pad2 d.month
  | .week, d => toString d.year ++ "W" ++ pad2 (weekNumberW d)
  | .day, d => toString d.year ++ "-" ++ pad2 d.month ++ "-" ++ pad2 d.day

/-! ## The `Timeunit` value type -/

/-- `date_to_int(val, mul) = mul * (year * 10000 + month * 100 + day)`. -/
def date_to_int (d : Date) (mul : Nat) : Nat :=
  mul * (d.year * 10000 + d.month * 100 + d.day)

/-- `date_from_int(val, div)`: floor-divide by `div`, then peel the day,
month and year off the base-100 digit groups (the source updates `val` in
place; the three divisions below are that sequence unrolled); the final
`date(...)` construction validates the fields (`none` models its
`ValueError`). -/
def date_from_int (val : Nat) (div : Nat) : Option Date :=
  mkDate? (val / div / 100 / 100) (val / div / 100 % 100) (val / div % 100)

/-- `class Timeunit`: an owning kind plus the stored (truncated) date. -/
structure Timeunit where
  kind : Kind
  dt : Date
deriving DecidableEq

/-- `Timeunit.__init__` reached through `TimeunitKindMeta.__call__` on a
date: the stored date is `kind.truncate(dt)`. -/
def mkTimeunit (k : Kind) (d : Date) : Option Timeunit :=
  (k.truncate d).map fun s => ⟨k, s⟩

/-- `Timeunit.previous` (via `get_previous`): subtract one day from the
stored date and re-wrap. -/
def Timeunit.previous (p : Timeunit) : Option Timeunit :=
  p.dt.pred?.bind (mkTimeunit p.kind)

/-- `Timeunit.next` (via `get_next`): `cls(cls._next(cls.truncate(dt)))`. -/
def Timeunit.next (p : Timeunit) : Option Timeunit :=
  (p.kind.truncate p.dt).bind fun t => (p.kind._next t).bind (mkTimeunit p.kind)

/-- `Timeunit.first_date`. -/
def Timeunit.first_date (p : Timeunit) : Date := p.dt

/-- `Timeunit.last_date`. -/
def Timeunit.last_date (p : Timeunit) : Option Date :=
  p.kind.last_day p.dt

/-- `Timeunit.date_range`: the `(first, last)` pair. -/
def Timeunit.date_range (p : Timeunit) : Option (Date × Date) :=
  p.last_date.map fun e => (p.dt, e)

/-- `Timeunit.__int__`: `date_to_int(self.dt, multiplier) + kind_int`. -/
def Timeunit.to_int (p : Timeunit) : Nat :=
  date_to_int p.dt multiplier + p.kind.kind_int

/-- `Timeunit.__lt__`: comparison of the integer encodings. -/
def Timeunit.lt (p q : Timeunit) : Prop := p.to_int < q.to_int

/-- `Timeunit.__str__`: delegate to the owning kind's `to_str`. -/
def Timeunit.to_str (p : Timeunit) : String := p.kind.to_str p.dt

/-- `TimeunitKindMeta.from_int`: decode the date from `val // multiplier`
(evaluated first, as the call argument), look the kind up under
`val % multiplier`, then construct - which re-truncates. -/
def from_int (val : Nat) : Option Timeunit :=
  (date_from_int val multiplier).bind fun d =>
    (lookupKind (val % multiplier)).bind fun k => mkTimeunit k d

/-- The Python exceptions that the embedded operations can surface. -/
inductive PyError where
  | typeError
  | valueError
  | attributeError
deriving DecidableEq

/-- The shapes a value passed to `overlaps_with` / `__contains__` can
take: a `datetime.date`, a `Timeunit`, a two-date tuple, or anything
else (such as the integer `1425` used in the repository's tests). -/
inductive RangeArg where
  | date (d : Date)
  | unit (t : Timeunit)
  | pair (a b : Date)
  | other

/-- `Timeunit._get_range`: a bare date is a one-day range and a `Timeunit`
contributes its `date_range`; every other value - including a two-date
tuple, for which no `isinstance` branch exists - raises `TypeError`.
(`valueError` surfaces when computing `date_range` itself overflows the
calendar at `9999-12-31`.) -/
def Timeunit.get_range : RangeArg → Except PyError (Date × Date)
  | .date d => .ok (d, d)
  | .unit t =>
    match t.date_range with
    | some r => .ok r
    | none => .error .valueError
  | .pair _ _ => .error .typeError
  | .other => .error .typeError

/-- `Timeunit.overlaps_with`: ranges intersect,
`to >= frm0 and to0 >= frm`.  The argument's range is computed first. -/
def Timeunit.overlaps_with (p : Timeunit) (item : RangeArg) : Except PyError Bool := do
  let (frm0, to0) ← Timeunit.get_range item
  match p.date_range with
  | some (frm, hi) => pure (decide (Date.le frm0 hi) && decide (Date.le frm to0))
  | none => .error .valueError

/-- `Timeunit.__contains__`: the argument's range lies inside `self`'s,
`frm <= frm0 and to0 <= to`. -/
def Timeunit.contains (p : Timeunit) (item : RangeArg) : Except PyError Bool := do
  let (frm0, to0) ← Timeunit.get_range item
  match p.date_range with
  | some (frm, hi) => pure (decide (Date.le frm frm0) && decide (Date.le to0 hi))
  | none => .error .valueError

/-- The attribute names resolvable on the class object `Timeunit`
(its class-body names plus the standard attributes every class object
exposes, such as `__name__`).  Listed from the source; the mangled name
`_Timeunit__name` is not among them. -/
def timeunitClassAttrs : List String :=
  ["__init__", "previous", "first_date", "last_date", "date_range",
   "ancestors", "successors", "__len__", "__iter__", "next", "__index__",
   "__eq__", "__lt__", "__gt__", "__le__", "__ge__", "__int__", "__hash__",
   "__repr__", "_get_range", "overlaps_with", "__contains__", "__str__",
   "__name__", "__qualname__", "__module__", "__doc__", "__dict__",
   "__bases__", "__mro__"]

/-- The attribute `Timeunit.__repr__` reads: the source text
`self.__class__.__name` has two leading underscores, so Python's private
name mangling inside `class Timeunit` rewrites it to `_Timeunit__name`. -/
def mangledReprAttr : String := "_Timeunit__name"

/-- Placeholder for the f-string `Timeunit.__repr__` would build; the
branch that returns it is unreachable because the attribute lookup always
fails. -/
def reprUnreachable : String := ""

/-- `Timeunit.__repr__`: look `_Timeunit__name` up on the class object;
an absent attribute raises `AttributeError`. -/
def Timeunit.repr (_p : Timeunit) : Except PyError String :=
  if timeunitClassAttrs.contains mangledReprAttr then
    Except.ok reprUnreachable
  else
    Except.error PyError.attributeError

-- Sanity checks against the spec's worked scenarios.
example : mkTimeunit Kind.quarter ⟨2021, 8, 15⟩ = some ⟨Kind.quarter, ⟨2021, 7, 1⟩⟩ := by decide
example : (mkTimeunit Kind.quarter ⟨2021, 8, 15⟩).map Timeunit.to_str = some "2021Q2" := by decide
example : mkTimeunit Kind.week ⟨2021, 1, 1⟩ = some ⟨Kind.week, ⟨2020, 12, 28⟩⟩ := by decide
example : (mkTimeunit Kind.week ⟨2021, 1, 1⟩).bind Timeunit.last_date = some ⟨2021, 1, 3⟩ := by decide


/-! ## Calendar lemmas -/

set_option maxHeartbeats 1000000

theorem daysInMonth_bounds (y m : Nat) : 28 ≤ daysInMonth y m ∧ daysInMonth y m ≤ 31 := by
  unfold daysInMonth
  split
  · split <;> omega
  all_goals omega

theorem daysBeforeMonth_one (y : Nat) : daysBeforeMonth y 1 = 0 := by
  simp [daysBeforeMonth, daysBeforeMonthTable]

theorem daysBeforeMonth_succ (y m : Nat) (h1 : 1 ≤ m) (h2 : m ≤ 11) :
    daysBeforeMonth y (m + 1) = daysBeforeMonth y m + daysInMonth y m := by
  interval_cases m <;>
    simp [daysBeforeMonth, daysBeforeMonthTable, daysInMonth] <;>
    split_ifs <;> omega

theorem daysBeforeMonth_twelve (y : Nat) :
    daysBeforeMonth y 12 = 334 + (if isLeap y then 1 else 0) := by
  by_cases hL : isLeap y <;> simp [daysBeforeMonth, daysBeforeMonthTable, hL]

theorem daysBeforeYear_succ (y : Nat) (h : 1 ≤ y) :
    daysBeforeYear (y + 1) = daysBeforeYear y + daysBeforeMonth y 12 + 31 := by
  rw [daysBeforeMonth_twelve]
  by_cases hL : isLeap y
  · rw [if_pos hL]
    have hL' : y % 4 = 0 ∧ (y % 100 ≠ 0 ∨ y % 400 = 0) := hL
    unfold daysBeforeYear
    omega
  · rw [if_neg hL]
    have hL' : ¬(y % 4 = 0 ∧ (y % 100 ≠ 0 ∨ y % 400 = 0)) := hL
    unfold daysBeforeYear
    omega

theorem valid_min : Date.Valid ⟨1, 1, 1⟩ := by decide

theorem toOrdinal_min : Date.toOrdinal ⟨1, 1, 1⟩ = 1 := by decide

theorem toOrdinal_pos (d : Date) (hv : d.Valid) : 1 ≤ d.toOrdinal := by
  obtain ⟨h1, h2, h3, h4, h5, h6⟩ := hv
  unfold Date.toOrdinal
  omega

theorem daysInMonth_twelve (y : Nat) : daysInMonth y 12 = 31 := rfl

theorem date_eta (d : Date) : (⟨d.year, d.month, d.day⟩ : Date) = d := rfl

theorem succ?_spec (d e : Date) (hv : d.Valid) (h : d.succ? = some e) :
    e.Valid ∧ e.toOrdinal = d.toOrdinal + 1 := by
  obtain ⟨hy1, hy2, hm1, hm2, hd1, hd2⟩ := hv
  have hb := daysInMonth_bounds d.year d.month
  unfold Date.succ? at h
  split_ifs at h with h1 h2 h3
  · injection h with h'
    subst h'
    refine ⟨⟨hy1, hy2, hm1, hm2, by dsimp only; omega, by dsimp only; omega⟩, ?_⟩
    show daysBeforeYear d.year + daysBeforeMonth d.year d.month + (d.day + 1) =
      daysBeforeYear d.year + daysBeforeMonth d.year d.month + d.day + 1
    omega
  · injection h with h'
    subst h'
    have hstep := daysBeforeMonth_succ d.year d.month hm1 (by omega)
    have hb' := daysInMonth_bounds d.year (d.month + 1)
    refine ⟨⟨hy1, hy2, by dsimp only; omega, by dsimp only; omega, by dsimp only; omega,
      by dsimp only; omega⟩, ?_⟩
    show daysBeforeYear d.year + daysBeforeMonth d.year (d.month + 1) + 1 =
      daysBeforeYear d.year + daysBeforeMonth d.year d.month + d.day + 1
    omega
  · injection h with h'
    subst h'
    have hm12 : d.month = 12 := by omega
    have hd31 : d.day = 31 := by rw [hm12, daysInMonth_twelve] at hd2 h1; omega
    have hstep := daysBeforeYear_succ d.year hy1
    refine ⟨⟨by dsimp only; omega, by dsimp only; omega, by dsimp only; omega,
      by dsimp only; omega, by dsimp only; omega, by dsimp only; simp [daysInMonth]⟩, ?_⟩
    show daysBeforeYear (d.year + 1) + daysBeforeMonth (d.year + 1) 1 + 1 =
      daysBeforeYear d.year + daysBeforeMonth d.year d.month + d.day + 1
    rw [daysBeforeMonth_one, hm12, hd31]
    omega

theorem pred?_valid (d e : Date) (hv : d.Valid) (h : d.pred? = some e) : e.Valid := by
  obtain ⟨hy1, hy2, hm1, hm2, hd1, hd2⟩ := hv
  have hb := daysInMonth_bounds d.year d.month
  unfold Date.pred? at h
  split_ifs at h with h1 h2 h3
  · injection h with h'
    subst h'
    exact ⟨hy1, hy2, hm1, hm2, by dsimp only; omega, by dsimp only; omega⟩
  · injection h with h'
    subst h'
    have hb' := daysInMonth_bounds d.year (d.month - 1)
    exact ⟨hy1, hy2, by dsimp only; omega, by dsimp only; omega, by dsimp only; omega,
      by dsimp only; omega⟩
  · injection h with h'
    subst h'
    refine ⟨by dsimp only; omega, by dsimp only; omega, by dsimp only; omega,
      by dsimp only; omega, by dsimp only; omega, by dsimp only; rw [daysInMonth_twelve]⟩

theorem pred?_succ? (d e : Date) (hv : d.Valid) (h : d.pred? = some e) :
    e.succ? = some d := by
  obtain ⟨hy1, hy2, hm1, hm2, hd1, hd2⟩ := hv
  have hb := daysInMonth_bounds d.year d.month
  unfold Date.pred? at h
  split_ifs at h with h1 h2 h3
  · injection h with h'
    subst h'
    unfold Date.succ?
    dsimp only
    rw [if_pos (by omega)]
    rw [show d.day - 1 + 1 = d.day from by omega, date_eta]
  · injection h with h'
    subst h'
    unfold Date.succ?
    dsimp only
    rw [if_neg (by omega), if_pos (by omega)]
    have hd : d.day = 1 := by omega
    rw [show d.month - 1 + 1 = d.month from by omega, ← hd, date_eta]
  · injection h with h'
    subst h'
    unfold Date.succ?
    dsimp only
    rw [daysInMonth_twelve]
    rw [if_neg (by omega), if_neg (by omega), if_pos (by omega)]
    have hd : d.day = 1 := by omega
    have hm : d.month = 1 := by omega
    rw [show d.year - 1 + 1 = d.year from by omega]
    have he : (⟨d.year, 1, 1⟩ : Date) = d := by
      conv_rhs => rw [← date_eta d]
      rw [hm, hd]
    rw [he]

theorem succ?_pred? (d e : Date) (hv : d.Valid) (h : d.succ? = some e) :
    e.pred? = some d := by
  obtain ⟨hy1, hy2, hm1, hm2, hd1, hd2⟩ := hv
  have hb := daysInMonth_bounds d.year d.month
  unfold Date.succ? at h
  split_ifs at h with h1 h2 h3
  · injection h with h'
    subst h'
    unfold Date.pred?
    dsimp only
    rw [if_pos (by omega)]
    rw [show d.day + 1 - 1 = d.day from by omega, date_eta]
  · injection h with h'
    subst h'
    unfold Date.pred?
    dsimp only
    rw [if_neg (by omega), if_pos (by omega)]
    have hd : d.day = daysInMonth d.year d.month := by omega
    rw [show d.month + 1 - 1 = d.month from by omega, ← hd, date_eta]
  · injection h with h'
    subst h'
    unfold Date.pred?
    dsimp only
    rw [if_neg (by omega), if_neg (by omega), if_pos (by omega)]
    have hm12 : d.month = 12 := by omega
    have hd31 : d.day = 31 := by rw [hm12, daysInMonth_twelve] at hd2 h1; omega
    rw [show d.year + 1 - 1 = d.year from by omega, ← hm12, ← hd31, date_eta]

theorem pred?_ord (d e : Date) (hv : d.Valid) (h : d.pred? = some e) :
    e.toOrdinal + 1 = d.toOrdinal := by
  have hv' := pred?_valid d e hv h
  have hs := pred?_succ? d e hv h
  exact ((succ?_spec e d hv' hs).2).symm

theorem pred?_eq_none (d : Date) (hv : d.Valid) :
    d.pred? = none ↔ d = ⟨1, 1, 1⟩ := by
  obtain ⟨hy1, hy2, hm1, hm2, hd1, hd2⟩ := hv
  unfold Date.pred?
  constructor
  · intro h
    split_ifs at h with h1 h2 h3
    have : d.year = 1 ∧ d.month = 1 ∧ d.day = 1 := by omega
    calc d = ⟨d.year, d.month, d.day⟩ := (date_eta d).symm
    _ = ⟨1, 1, 1⟩ := by rw [this.1, this.2.1, this.2.2]
  · intro h
    subst h
    rfl

theorem subDays?_zero (d : Date) : d.subDays? 0 = some d := rfl

theorem subDays?_succ (d : Date) (n : Nat) :
    d.subDays? (n + 1) = d.pred?.bind (Date.subDays? · n) := rfl

theorem addDays?_zero (d : Date) : d.addDays? 0 = some d := rfl

theorem addDays?_succ (d : Date) (n : Nat) :
    d.addDays? (n + 1) = d.succ?.bind (Date.addDays? · n) := rfl

theorem subDays?_spec (n : Nat) : ∀ d e : Date, d.Valid → d.subDays? n = some e →
    e.Valid ∧ e.toOrdinal + n = d.toOrdinal := by
  induction n with
  | zero =>
    intro d e hv h
    rw [subDays?_zero] at h
    injection h with h'
    subst h'
    exact ⟨hv, rfl⟩
  | succ n ih =>
    intro d e hv h
    rw [subDays?_succ] at h
    cases hp : d.pred? with
    | none => rw [hp] at h; exact absurd h (by simp)
    | some e1 =>
      rw [hp] at h
      simp only [Option.some_bind] at h
      have hv1 := pred?_valid d e1 hv hp
      have ho1 := pred?_ord d e1 hv hp
      obtain ⟨hv2, ho2⟩ := ih e1 e hv1 h
      exact ⟨hv2, by omega⟩

theorem addDays?_spec (n : Nat) : ∀ d e : Date, d.Valid → d.addDays? n = some e →
    e.Valid ∧ e.toOrdinal = d.toOrdinal + n := by
  induction n with
  | zero =>
    intro d e hv h
    rw [addDays?_zero] at h
    injection h with h'
    subst h'
    exact ⟨hv, rfl⟩
  | succ n ih =>
    intro d e hv h
    rw [addDays?_succ] at h
    cases hp : d.succ? with
    | none => rw [hp] at h; exact absurd h (by simp)
    | some e1 =>
      rw [hp] at h
      simp only [Option.some_bind] at h
      obtain ⟨hv1, ho1⟩ := succ?_spec d e1 hv hp
      obtain ⟨hv2, ho2⟩ := ih e1 e hv1 h
      exact ⟨hv2, by omega⟩

theorem subDays?_isSome (n : Nat) : ∀ d : Date, d.Valid → n + 1 ≤ d.toOrdinal →
    ∃ e, d.subDays? n = some e := by
  induction n with
  | zero => intro d _ _; exact ⟨d, rfl⟩
  | succ n ih =>
    intro d hv hn
    cases hp : d.pred? with
    | none =>
      have hmin : d = ⟨1, 1, 1⟩ := (pred?_eq_none d hv).mp hp
      rw [hmin, toOrdinal_min] at hn
      omega
    | some e1 =>
      have hv1 := pred?_valid d e1 hv hp
      have ho1 := pred?_ord d e1 hv hp
      obtain ⟨e, he⟩ := ih e1 hv1 (by omega)
      exact ⟨e, by rw [subDays?_succ, hp, Option.some_bind]; exact he⟩

theorem addDays?_snoc (n : Nat) : ∀ d e f : Date, d.addDays? n = some e →
    e.succ? = some f → d.addDays? (n + 1) = some f := by
  induction n with
  | zero =>
    intro d e f h hs
    rw [addDays?_zero] at h
    injection h with h'
    subst h'
    rw [addDays?_succ, hs, Option.some_bind, addDays?_zero]
  | succ n ih =>
    intro d e f h hs
    rw [addDays?_succ] at h
    cases hp : d.succ? with
    | none => rw [hp] at h; exact absurd h (by simp)
    | some g =>
      rw [hp] at h
      simp only [Option.some_bind] at h
      rw [addDays?_succ, hp, Option.some_bind]
      exact ih g e f h hs

theorem subDays?_snoc (n : Nat) : ∀ d e f : Date, d.subDays? n = some e →
    e.pred? = some f → d.subDays? (n + 1) = some f := by
  induction n with
  | zero =>
    intro d e f h hs
    rw [subDays?_zero] at h
    injection h with h'
    subst h'
    rw [subDays?_succ, hs, Option.some_bind, subDays?_zero]
  | succ n ih =>
    intro d e f h hs
    rw [subDays?_succ] at h
    cases hp : d.pred? with
    | none => rw [hp] at h; exact absurd h (by simp)
    | some g =>
      rw [hp] at h
      simp only [Option.some_bind] at h
      rw [subDays?_succ, hp, Option.some_bind]
      exact ih g e f h hs

theorem subDays?_addDays? (n : Nat) : ∀ d e : Date, d.Valid → d.subDays? n = some e →
    e.addDays? n = some d := by
  induction n with
  | zero =>
    intro d e _ h
    rw [subDays?_zero] at h
    injection h with h'
    subst h'
    rfl
  | succ n ih =>
    intro d e hv h
    rw [subDays?_succ] at h
    cases hp : d.pred? with
    | none => rw [hp] at h; exact absurd h (by simp)
    | some e1 =>
      rw [hp] at h
      simp only [Option.some_bind] at h
      have hv1 := pred?_valid d e1 hv hp
      have hs := pred?_succ? d e1 hv hp
      exact addDays?_snoc n e e1 d (ih e1 e hv1 h) hs

theorem addDays?_subDays? (n : Nat) : ∀ d e : Date, d.Valid → d.addDays? n = some e →
    e.subDays? n = some d := by
  induction n with
  | zero =>
    intro d e _ h
    rw [addDays?_zero] at h
    injection h with h'
    subst h'
    rfl
  | succ n ih =>
    intro d e hv h
    rw [addDays?_succ] at h
    cases hp : d.succ? with
    | none => rw [hp] at h; exact absurd h (by simp)
    | some e1 =>
      rw [hp] at h
      simp only [Option.some_bind] at h
      have hv1 := (succ?_spec d e1 hv hp).1
      have hs := succ?_pred? d e1 hv hp
      exact subDays?_snoc n e e1 d (ih e1 e hv1 h) hs

theorem mkDate?_pos (y m d : Nat) (h : Date.Valid ⟨y, m, d⟩) :
    mkDate? y m d = some ⟨y, m, d⟩ := by
  unfold mkDate?
  rw [if_pos h]

theorem mkDate?_some (y m d : Nat) (t : Date) (h : mkDate? y m d = some t) :
    t = ⟨y, m, d⟩ ∧ Date.Valid ⟨y, m, d⟩ := by
  unfold mkDate? at h
  split_ifs at h with h1
  · injection h with h'
    exact ⟨h'.symm, h1⟩

theorem weekday_lt (d : Date) : d.weekday < 7 := by
  unfold Date.weekday
  omega

/-- A date is a fixed point of its kind's truncation (the shape every
stored `Timeunit.dt` has). -/
def StartOk (k : Kind) (s : Date) : Prop := k.truncate s = some s

theorem trunc_good (k : Kind) (d t : Date) (hv : d.Valid) (h : k.truncate d = some t) :
    t.Valid ∧ StartOk k t := by
  obtain ⟨hy1, hy2, hm1, hm2, hd1, hd2⟩ := hv
  cases k
  · simp only [Kind.truncate] at h
    split_ifs at h with h1000
    injection h with h'
    subst h'
    have hb := daysInMonth_bounds d.year 1
    refine ⟨⟨hy1, hy2, by dsimp only; omega, by dsimp only; omega, by dsimp only; omega,
      by dsimp only; omega⟩, ?_⟩
    unfold StartOk
    simp only [Kind.truncate]
    rw [if_pos h1000]
  · simp only [Kind.truncate] at h ⊢
    injection h with h'
    subst h'
    have hb := daysInMonth_bounds d.year (3 * ((d.month - 1) / 3) + 1)
    refine ⟨⟨hy1, hy2, by dsimp only; omega, by dsimp only; omega, by dsimp only; omega,
      by dsimp only; omega⟩, ?_⟩
    unfold StartOk
    simp only [Kind.truncate]
    rw [show 3 * ((3 * ((d.month - 1) / 3) + 1 - 1) / 3) + 1 = 3 * ((d.month - 1) / 3) + 1
      from by omega]
  · simp only [Kind.truncate] at h
    split_ifs at h with h1000
    injection h with h'
    subst h'
    have hb := daysInMonth_bounds d.year d.month
    refine ⟨⟨hy1, hy2, by dsimp only; omega, by dsimp only; omega, by dsimp only; omega,
      by dsimp only; omega⟩, ?_⟩
    unfold StartOk
    simp only [Kind.truncate]
    rw [if_pos h1000]
  · simp only [Kind.truncate] at h ⊢
    have hv' : d.Valid := ⟨hy1, hy2, hm1, hm2, hd1, hd2⟩
    obtain ⟨hvt, hot⟩ := subDays?_spec d.weekday d t hv' h
    refine ⟨hvt, ?_⟩
    have ho1 := toOrdinal_pos d hv'
    have hw : d.weekday = (d.toOrdinal + 6) % 7 := rfl
    have hwt : t.weekday = 0 := by
      unfold Date.weekday
      omega
    unfold StartOk
    simp only [Kind.truncate]
    rw [hwt, subDays?_zero]
  · simp only [Kind.truncate] at h
    split_ifs at h with h1000
    injection h with h'
    subst h'
    refine ⟨⟨hy1, hy2, hm1, hm2, hd1, hd2⟩, ?_⟩
    unfold StartOk
    simp only [Kind.truncate]
    rw [if_pos h1000]

theorem succ?_year_ge (d e : Date) (h : d.succ? = some e) : d.year ≤ e.year := by
  unfold Date.succ? at h
  split_ifs at h <;> injection h with h' <;> subst h' <;> dsimp only <;> omega

theorem valid_mk (y m d : Nat) (h1 : 1 ≤ y) (h2 : y ≤ 9999) (h3 : 1 ≤ m) (h4 : m ≤ 12)
    (h5 : 1 ≤ d) (h6 : d ≤ daysInMonth y m) : Date.Valid ⟨y, m, d⟩ :=
  ⟨h1, h2, h3, h4, h5, h6⟩

theorem pred?_jan1 (y : Nat) (h : 1 < y) :
    Date.pred? ⟨y, 1, 1⟩ = some ⟨y - 1, 12, 31⟩ := by
  unfold Date.pred?
  have c1 : ¬1 < (⟨y, 1, 1⟩ : Date).day := by dsimp only; omega
  have c2 : ¬1 < (⟨y, 1, 1⟩ : Date).month := by dsimp only; omega
  have c3 : 1 < (⟨y, 1, 1⟩ : Date).year := by dsimp only; omega
  rw [if_neg c1, if_neg c2, if_pos c3]

theorem pred?_first_of_month (y m : Nat) (h : 1 < m) :
    Date.pred? ⟨y, m, 1⟩ = some ⟨y, m - 1, daysInMonth y (m - 1)⟩ := by
  unfold Date.pred?
  have c1 : ¬1 < (⟨y, m, 1⟩ : Date).day := by dsimp only; omega
  have c2 : 1 < (⟨y, m, 1⟩ : Date).month := by dsimp only; omega
  rw [if_neg c1, if_pos c2]

theorem kind_prev_spec (k : Kind) (s e t : Date) (hv : s.Valid) (hs : StartOk k s)
    (hp : s.pred? = some e) (htr : k.truncate e = some t) :
    t.Valid ∧ StartOk k t ∧ k._next t = some s := by
  obtain ⟨sy, sm, sd⟩ := s
  have hvc : 1 ≤ sy ∧ sy ≤ 9999 ∧ 1 ≤ sm ∧ sm ≤ 12 ∧ 1 ≤ sd ∧ sd ≤ daysInMonth sy sm := hv
  obtain ⟨hy1, hy2, hm1, hm2, hd1, hd2⟩ := hvc
  cases k
  case year =>
    unfold StartOk at hs
    simp only [Kind.truncate] at hs
    split_ifs at hs with hk1000
    injection hs with hs'
    rw [Date.mk.injEq] at hs'
    obtain ⟨-, hm', hd'⟩ := hs'
    subst hm'
    subst hd'
    rw [pred?_jan1 sy (by omega)] at hp
    injection hp with hp'
    subst hp'
    simp only [Kind.truncate] at htr
    split_ifs at htr with h2
    injection htr with ht'
    subst ht'
    have hb1 := daysInMonth_bounds (sy - 1) 1
    have hb2 := daysInMonth_bounds sy 1
    refine ⟨valid_mk _ _ _ (by omega) (by omega) (by omega) (by omega) (by omega) (by omega),
      ?_, ?_⟩
    · unfold StartOk
      simp only [Kind.truncate]
      rw [if_pos h2]
    · simp only [Kind._next]
      rw [show sy - 1 + 1 = sy from by omega]
      exact mkDate?_pos sy 1 1
        (valid_mk _ _ _ (by omega) (by omega) (by omega) (by omega) (by omega) (by omega))
  case quarter =>
    unfold StartOk at hs
    simp only [Kind.truncate] at hs
    injection hs with hs'
    rw [Date.mk.injEq] at hs'
    obtain ⟨-, hm', hd'⟩ := hs'
    subst hd'
    have hm4 : sm = 1 ∨ sm = 4 ∨ sm = 7 ∨ sm = 10 := by omega
    rcases hm4 with rfl | rfl | rfl | rfl
    · unfold Date.pred? at hp
      dsimp only at hp
      rw [if_neg (by omega), if_neg (by omega)] at hp
      split_ifs at hp with h3
      injection hp with hp'
      subst hp'
      simp only [Kind.truncate] at htr
      norm_num at htr
      subst htr
      have hb1 := daysInMonth_bounds (sy - 1) 10
      have hb2 := daysInMonth_bounds sy 1
      refine ⟨valid_mk _ _ _ (by omega) (by omega) (by omega) (by omega) (by omega) (by omega),
        ?_, ?_⟩
      · unfold StartOk
        simp only [Kind.truncate]
      · simp only [Kind._next]
        norm_num
        rw [show sy - 1 + 1 = sy from by omega]
        exact mkDate?_pos sy 1 1
          (valid_mk _ _ _ (by omega) (by omega) (by omega) (by omega) (by omega) (by omega))
    · rw [pred?_first_of_month sy 4 (by omega)] at hp
      injection hp with hp'
      subst hp'
      simp only [Kind.truncate] at htr
      norm_num at htr
      subst htr
      have hb1 := daysInMonth_bounds sy 1
      have hb2 := daysInMonth_bounds sy 4
      refine ⟨valid_mk _ _ _ (by omega) (by omega) (by omega) (by omega) (by omega) (by omega),
        ?_, ?_⟩
      · unfold StartOk
        simp only [Kind.truncate]
      · simp only [Kind._next]
        norm_num
        exact mkDate?_pos sy 4 1
          (valid_mk _ _ _ (by omega) (by omega) (by omega) (by omega) (by omega) (by omega))
    · rw [pred?_first_of_month sy 7 (by omega)] at hp
      injection hp with hp'
      subst hp'
      simp only [Kind.truncate] at htr
      norm_num at htr
      subst htr
      have hb1 := daysInMonth_bounds sy 4
      have hb2 := daysInMonth_bounds sy 7
      refine ⟨valid_mk _ _ _ (by omega) (by omega) (by omega) (by omega) (by omega) (by omega),
        ?_, ?_⟩
      · unfold StartOk
        simp only [Kind.truncate]
      · simp only [Kind._next]
        norm_num
        exact mkDate?_pos sy 7 1
          (valid_mk _ _ _ (by omega) (by omega) (by omega) (by omega) (by omega) (by omega))
    · rw [pred?_first_of_month sy 10 (by omega)] at hp
      injection hp with hp'
      subst hp'
      simp only [Kind.truncate] at htr
      norm_num at htr
      subst htr
      have hb1 := daysInMonth_bounds sy 7
      have hb2 := daysInMonth_bounds sy 10
      refine ⟨valid_mk _ _ _ (by omega) (by omega) (by omega) (by omega) (by omega) (by omega),
        ?_, ?_⟩
      · unfold StartOk
        simp only [Kind.truncate]
      · simp only [Kind._next]
        norm_num
        exact mkDate?_pos sy 10 1
          (valid_mk _ _ _ (by omega) (by omega) (by omega) (by omega) (by omega) (by omega))
  case month =>
    unfold StartOk at hs
    simp only [Kind.truncate] at hs
    split_ifs at hs with hk1000
    injection hs with hs'
    rw [Date.mk.injEq] at hs'
    obtain ⟨-, -, hd'⟩ := hs'
    subst hd'
    by_cases hsm : sm = 1
    · subst hsm
      rw [pred?_jan1 sy (by omega)] at hp
      injection hp with hp'
      subst hp'
      simp only [Kind.truncate] at htr
      split_ifs at htr with h2
      injection htr with ht'
      subst ht'
      have hb1 := daysInMonth_bounds (sy - 1) 12
      have hb2 := daysInMonth_bounds sy 1
      refine ⟨valid_mk _ _ _ (by omega) (by omega) (by omega) (by omega) (by omega) (by omega),
        ?_, ?_⟩
      · unfold StartOk
        simp only [Kind.truncate]
        rw [if_pos h2]
      · simp only [Kind._next]
        norm_num
        rw [show sy - 1 + 1 = sy from by omega]
        exact mkDate?_pos sy 1 1
          (valid_mk _ _ _ (by omega) (by omega) (by omega) (by omega) (by omega) (by omega))
    · rw [pred?_first_of_month sy sm (by omega)] at hp
      injection hp with hp'
      subst hp'
      simp only [Kind.truncate] at htr
      rw [if_pos hk1000] at htr
      injection htr with ht'
      subst ht'
      have hb1 := daysInMonth_bounds sy (sm - 1)
      have hb2 := daysInMonth_bounds sy sm
      refine ⟨valid_mk _ _ _ (by omega) (by omega) (by omega) (by omega) (by omega) (by omega),
        ?_, ?_⟩
      · unfold StartOk
        simp only [Kind.truncate]
        rw [if_pos hk1000]
      · simp only [Kind._next]
        rw [show sm - 1 + 1 = sm from by omega]
        rw [if_neg (by omega)]
        exact mkDate?_pos sy sm 1
          (valid_mk _ _ _ (by omega) (by omega) (by omega) (by omega) (by omega) (by omega))
  case week =>
    unfold StartOk at hs
    simp only [Kind.truncate] at hs
    have hv' : Date.Valid ⟨sy, sm, sd⟩ := hv
    obtain ⟨-, hos⟩ := subDays?_spec _ _ _ hv' hs
    have hw0 : Date.weekday ⟨sy, sm, sd⟩ = 0 := by omega
    have hwdef : Date.weekday ⟨sy, sm, sd⟩ = (Date.toOrdinal ⟨sy, sm, sd⟩ + 6) % 7 := rfl
    have hv1 := pred?_valid _ _ hv' hp
    have ho1 := pred?_ord _ _ hv' hp
    have hoe := toOrdinal_pos e hv1
    have hwe : e.weekday = 6 := by
      unfold Date.weekday
      omega
    simp only [Kind.truncate] at htr
    rw [hwe] at htr
    obtain ⟨hvt, hot⟩ := subDays?_spec 6 e t hv1 htr
    have hwt : t.weekday = 0 := by
      unfold Date.weekday
      omega
    refine ⟨hvt, ?_, ?_⟩
    · unfold StartOk
      simp only [Kind.truncate]
      rw [hwt, subDays?_zero]
    · simp only [Kind._next]
      have hs7 : Date.subDays? ⟨sy, sm, sd⟩ 7 = some t := by
        rw [subDays?_succ, hp, Option.some_bind]
        exact htr
      exact subDays?_addDays? 7 _ t hv' hs7
  case day =>
    have hv' : Date.Valid ⟨sy, sm, sd⟩ := hv
    simp only [Kind.truncate] at htr
    split_ifs at htr with h2
    injection htr with ht'
    subst ht'
    refine ⟨pred?_valid _ _ hv' hp, ?_, ?_⟩
    · unfold StartOk
      simp only [Kind.truncate]
      rw [if_pos h2]
    · simp only [Kind._next]
      exact pred?_succ? _ _ hv' hp

theorem kind_next_spec (k : Kind) (s s' : Date) (hv : s.Valid) (hs : StartOk k s)
    (hn : k._next s = some s') :
    s'.Valid ∧ StartOk k s' ∧ ∃ e, s'.pred? = some e ∧ k.truncate e = some s := by
  obtain ⟨sy, sm, sd⟩ := s
  have hvc : 1 ≤ sy ∧ sy ≤ 9999 ∧ 1 ≤ sm ∧ sm ≤ 12 ∧ 1 ≤ sd ∧ sd ≤ daysInMonth sy sm := hv
  obtain ⟨hy1, hy2, hm1, hm2, hd1, hd2⟩ := hvc
  cases k
  case year =>
    unfold StartOk at hs
    simp only [Kind.truncate] at hs
    split_ifs at hs with hk1000
    injection hs with hs'
    rw [Date.mk.injEq] at hs'
    obtain ⟨-, hm', hd'⟩ := hs'
    subst hm'
    subst hd'
    simp only [Kind._next] at hn
    obtain ⟨rfl, hvs'⟩ := mkDate?_some _ _ _ _ hn
    refine ⟨hvs', ?_, ⟨sy, 12, 31⟩, ?_, ?_⟩
    · unfold StartOk
      simp only [Kind.truncate]
      rw [if_pos (show (1000 : Nat) ≤ sy + 1 from by omega)]
    · rw [pred?_jan1 (sy + 1) (by omega)]
      rw [show sy + 1 - 1 = sy from by omega]
    · simp only [Kind.truncate]
      rw [if_pos hk1000]
  case quarter =>
    unfold StartOk at hs
    simp only [Kind.truncate] at hs
    injection hs with hs'
    rw [Date.mk.injEq] at hs'
    obtain ⟨-, hm', hd'⟩ := hs'
    subst hd'
    have hm4 : sm = 1 ∨ sm = 4 ∨ sm = 7 ∨ sm = 10 := by omega
    rcases hm4 with rfl | rfl | rfl | rfl
    · simp only [Kind._next] at hn
      norm_num at hn
      obtain ⟨rfl, hvs'⟩ := mkDate?_some _ _ _ _ hn
      refine ⟨hvs', ?_, ⟨sy, 3, daysInMonth sy 3⟩, ?_, ?_⟩
      · unfold StartOk
        simp only [Kind.truncate]
      · exact pred?_first_of_month sy 4 (by omega)
      · simp only [Kind.truncate]
    · simp only [Kind._next] at hn
      norm_num at hn
      obtain ⟨rfl, hvs'⟩ := mkDate?_some _ _ _ _ hn
      refine ⟨hvs', ?_, ⟨sy, 6, daysInMonth sy 6⟩, ?_, ?_⟩
      · unfold StartOk
        simp only [Kind.truncate]
      · exact pred?_first_of_month sy 7 (by omega)
      · simp only [Kind.truncate]
    · simp only [Kind._next] at hn
      norm_num at hn
      obtain ⟨rfl, hvs'⟩ := mkDate?_some _ _ _ _ hn
      refine ⟨hvs', ?_, ⟨sy, 9, daysInMonth sy 9⟩, ?_, ?_⟩
      · unfold StartOk
        simp only [Kind.truncate]
      · exact pred?_first_of_month sy 10 (by omega)
      · simp only [Kind.truncate]
    · simp only [Kind._next] at hn
      norm_num at hn
      obtain ⟨rfl, hvs'⟩ := mkDate?_some _ _ _ _ hn
      refine ⟨hvs', ?_, ⟨sy, 12, 31⟩, ?_, ?_⟩
      · unfold StartOk
        simp only [Kind.truncate]
      · rw [pred?_jan1 (sy + 1) (by omega)]
        rw [show sy + 1 - 1 = sy from by omega]
      · simp only [Kind.truncate]
  case month =>
    unfold StartOk at hs
    simp only [Kind.truncate] at hs
    split_ifs at hs with hk1000
    injection hs with hs'
    rw [Date.mk.injEq] at hs'
    obtain ⟨-, -, hd'⟩ := hs'
    subst hd'
    by_cases hsm : sm = 12
    · subst hsm
      simp only [Kind._next] at hn
      norm_num at hn
      obtain ⟨rfl, hvs'⟩ := mkDate?_some _ _ _ _ hn
      refine ⟨hvs', ?_, ⟨sy, 12, 31⟩, ?_, ?_⟩
      · unfold StartOk
        simp only [Kind.truncate]
        rw [if_pos (show (1000 : Nat) ≤ sy + 1 from by omega)]
      · rw [pred?_jan1 (sy + 1) (by omega)]
        rw [show sy + 1 - 1 = sy from by omega]
      · simp only [Kind.truncate]
        rw [if_pos hk1000]
    · simp only [Kind._next] at hn
      rw [if_neg (by omega)] at hn
      obtain ⟨rfl, hvs'⟩ := mkDate?_some _ _ _ _ hn
      refine ⟨hvs', ?_, ⟨sy, sm, daysInMonth sy sm⟩, ?_, ?_⟩
      · unfold StartOk
        simp only [Kind.truncate]
        rw [if_pos hk1000]
      · rw [pred?_first_of_month sy (sm + 1) (by omega)]
        rw [show sm + 1 - 1 = sm from by omega]
      · simp only [Kind.truncate]
        rw [if_pos hk1000]
  case week =>
    unfold StartOk at hs
    simp only [Kind.truncate] at hs
    have hv' : Date.Valid ⟨sy, sm, sd⟩ := hv
    obtain ⟨-, hos⟩ := subDays?_spec _ _ _ hv' hs
    have hw0 : Date.weekday ⟨sy, sm, sd⟩ = 0 := by omega
    have hwdef : Date.weekday ⟨sy, sm, sd⟩ = (Date.toOrdinal ⟨sy, sm, sd⟩ + 6) % 7 := rfl
    have hopos := toOrdinal_pos _ hv'
    simp only [Kind._next] at hn
    obtain ⟨hvs', hos'⟩ := addDays?_spec 7 _ _ hv' hn
    have hws' : s'.weekday = 0 := by
      unfold Date.weekday
      omega
    refine ⟨hvs', ?_, ?_⟩
    · unfold StartOk
      simp only [Kind.truncate]
      rw [hws', subDays?_zero]
    · cases hpe : s'.pred? with
      | none =>
        have hmin := (pred?_eq_none s' hvs').mp hpe
        rw [hmin] at hos'
        rw [toOrdinal_min] at hos'
        omega
      | some e =>
        have hve := pred?_valid _ _ hvs' hpe
        have hoe := pred?_ord _ _ hvs' hpe
        have hwe : e.weekday = 6 := by
          unfold Date.weekday
          omega
        have hsub7 : s'.subDays? 7 = some ⟨sy, sm, sd⟩ :=
          addDays?_subDays? 7 _ _ hv' hn
        rw [subDays?_succ, hpe, Option.some_bind] at hsub7
        refine ⟨e, rfl, ?_⟩
        simp only [Kind.truncate]
        rw [hwe]
        exact hsub7
  case day =>
    unfold StartOk at hs
    simp only [Kind.truncate] at hs
    split_ifs at hs with hk1000
    have hv' : Date.Valid ⟨sy, sm, sd⟩ := hv
    simp only [Kind._next] at hn
    have hy' : (1000 : Nat) ≤ s'.year :=
      Nat.le_trans hk1000 (succ?_year_ge ⟨sy, sm, sd⟩ s' hn)
    refine ⟨(succ?_spec _ _ hv' hn).1, ?_, ⟨sy, sm, sd⟩, succ?_pred? _ _ hv' hn, ?_⟩
    · unfold StartOk
      simp only [Kind.truncate]
      rw [if_pos hy']
    · simp only [Kind.truncate]
      rw [if_pos hk1000]

/-! ## Registry and encoding lemmas -/

theorem multiplier_eq : multiplier = 10 := by
  have hf : (kindRegistry.map Kind.kind_int).foldl Nat.max 1 = 9 := rfl
  unfold multiplier registryMultiplier
  rw [hf]
  rw [Nat.clog_of_two_le (by norm_num) (by norm_num)]
  norm_num

theorem lookupKind_kind_int (k : Kind) : lookupKind k.kind_int = some k := by
  cases k <;> rfl

theorem kind_int_le_nine (k : Kind) : 1 ≤ k.kind_int ∧ k.kind_int ≤ 9 := by
  cases k <;> exact ⟨by decide, by decide⟩

theorem date_from_int_digits (y m d c : Nat) (hm : m ≤ 99)
    (hd : d ≤ 99) (hc : c ≤ 9) :
    date_from_int (10 * (y * 10000 + m * 100 + d) + c) 10 = mkDate? y m d := by
  unfold date_from_int
  have e1 : (10 * (y * 10000 + m * 100 + d) + c) / 10 = y * 10000 + m * 100 + d := by
    omega
  rw [e1]
  have e2 : (y * 10000 + m * 100 + d) % 100 = d := by omega
  have e3 : (y * 10000 + m * 100 + d) / 100 % 100 = m := by omega
  have e4 : (y * 10000 + m * 100 + d) / 100 / 100 = y := by omega
  rw [e2, e3, e4]

theorem mkTimeunit_inv (k : Kind) (d : Date) (p : Timeunit) (h : mkTimeunit k d = some p) :
    ∃ s, k.truncate d = some s ∧ p = ⟨k, s⟩ := by
  unfold mkTimeunit at h
  cases ht : k.truncate d with
  | none => rw [ht] at h; exact absurd h (by simp)
  | some s =>
    rw [ht, Option.map_some'] at h
    injection h with h'
    exact ⟨s, rfl, h'.symm⟩

/-! ## Claim theorems -/

/-- C3 (amended): truncation is not total - for the Year, Month and Day
kinds it raises `ValueError` on every date with year below 1000, because
`strftime` renders `%Y` without zero-padding while `strptime` demands
exactly four digits; Quarter and Week truncate every date.  Whenever
truncation returns a date it is idempotent, and a Period constructed from
that date stores exactly the truncated date, so
`start_date == kind.truncate(start_date)` holds after construction. -/
theorem truncate_idempotent (k : Kind) (d t : Date) (hv : d.Valid)
    (ht : k.truncate d = some t) :
    k.truncate t = some t ∧ mkTimeunit k d = some ⟨k, t⟩ := by
  obtain ⟨hvt, hst⟩ := trunc_good k d t hv ht
  refine ⟨hst, ?_⟩
  unfold mkTimeunit
  rw [ht, Option.map_some']

/-- Counterexample to C3 as stated: `Year.truncate(date(5,1,1))` raises
`ValueError` - `strftime("%Y")` yields the three-characters-short `"5"`,
which `strptime`'s four-digit `%Y` rejects - so
`K.truncate(K.truncate(d)) == K.truncate(d)` fails for `K = Year` at
`d = date(5,1,1)`; Month and Day fail the same way below year 1000. -/
theorem truncate_idempotent_cex :
    Date.Valid ⟨5, 1, 1⟩ ∧ Kind.year.truncate ⟨5, 1, 1⟩ = none ∧
    Date.Valid ⟨999, 12, 31⟩ ∧ Kind.month.truncate ⟨999, 12, 31⟩ = none ∧
    Kind.day.truncate ⟨999, 12, 31⟩ = none := by
  decide

/-- Witness for the amended C3, at the Week kind and 2021-01-01 (a
Friday, truncating to Monday 2020-12-28). -/
theorem truncate_idempotent_witness :
    Date.Valid ⟨2021, 1, 1⟩ ∧
    Kind.week.truncate ⟨2021, 1, 1⟩ = some ⟨2020, 12, 28⟩ ∧
    (Kind.week.truncate ⟨2020, 12, 28⟩ = some ⟨2020, 12, 28⟩ ∧
      mkTimeunit Kind.week ⟨2021, 1, 1⟩ = some ⟨Kind.week, ⟨2020, 12, 28⟩⟩) :=
  ⟨by decide, by decide,
    truncate_idempotent Kind.week ⟨2021, 1, 1⟩ ⟨2020, 12, 28⟩ (by decide) (by decide)⟩

/-- C1: for every Period `p` constructed by truncating a date with one of
the built-in kinds, decoding its integer encoding returns an equal Period:
`TimeunitKind.from_int(int(p)) == p`. -/
theorem from_int_to_int (k : Kind) (d : Date) (hv : d.Valid) (p : Timeunit)
    (hp : mkTimeunit k d = some p) : from_int p.to_int = some p := by
  obtain ⟨s, ht, rfl⟩ := mkTimeunit_inv k d p hp
  obtain ⟨hvs, hss⟩ := trunc_good k d s hv ht
  obtain ⟨sy, sm, sd⟩ := s
  have hvc : 1 ≤ sy ∧ sy ≤ 9999 ∧ 1 ≤ sm ∧ sm ≤ 12 ∧ 1 ≤ sd ∧ sd ≤ daysInMonth sy sm := hvs
  have hb := daysInMonth_bounds sy sm
  obtain ⟨hy1, hy2, hm1, hm2, hd1, hd2⟩ := hvc
  obtain ⟨hc1, hc9⟩ := kind_int_le_nine k
  have hval : Timeunit.to_int ⟨k, ⟨sy, sm, sd⟩⟩ =
      10 * (sy * 10000 + sm * 100 + sd) + k.kind_int := by
    show multiplier * (sy * 10000 + sm * 100 + sd) + k.kind_int =
      10 * (sy * 10000 + sm * 100 + sd) + k.kind_int
    rw [multiplier_eq]
  unfold from_int
  rw [multiplier_eq, hval]
  have hmod : (10 * (sy * 10000 + sm * 100 + sd) + k.kind_int) % 10 = k.kind_int := by
    omega
  rw [date_from_int_digits sy sm sd k.kind_int (by omega) (by omega) (by omega),
    mkDate?_pos sy sm sd hvs]
  simp only [Option.some_bind]
  rw [hmod, lookupKind_kind_int k]
  simp only [Option.some_bind]
  unfold mkTimeunit
  rw [show Kind.truncate k ⟨sy, sm, sd⟩ = some ⟨sy, sm, sd⟩ from hss, Option.map_some']

/-- Witness for C1, at the Day kind and 2021-01-01. -/
theorem from_int_to_int_witness :
    Date.Valid ⟨2021, 1, 1⟩ ∧
    mkTimeunit Kind.day ⟨2021, 1, 1⟩ = some ⟨Kind.day, ⟨2021, 1, 1⟩⟩ ∧
    from_int (Timeunit.to_int ⟨Kind.day, ⟨2021, 1, 1⟩⟩) = some ⟨Kind.day, ⟨2021, 1, 1⟩⟩ :=
  ⟨by decide, rfl, from_int_to_int Kind.day ⟨2021, 1, 1⟩ (by decide) ⟨Kind.day, ⟨2021, 1, 1⟩⟩ rfl⟩

/-- C2 (amended): for every Period `p` of a built-in kind, whenever
`p.previous` is defined, `p.previous.next == p`; whenever `p.next` is
defined, `p.next.previous == p` and
`p.last_date + 1 day == p.next.first_date`.  `previous`/`next` raise at
the calendar bounds (0001-01-01 / 9999-12-31) and, for the
strptime-truncating kinds Year, Month and Day, also at the year-999/1000
boundary (re-truncating a year-999 date raises `ValueError`), so the
gapless chain only holds between those break points, not for every
Period. -/
theorem adjacency (k : Kind) (d : Date) (hv : d.Valid) (p : Timeunit)
    (hp : mkTimeunit k d = some p) :
    p.previous.bind Timeunit.next = p.previous.map (fun _ => p) ∧
    p.next.bind Timeunit.previous = p.next.map (fun _ => p) ∧
    p.last_date.bind Date.succ? = p.next.map Timeunit.first_date := by
  obtain ⟨s, ht, rfl⟩ := mkTimeunit_inv k d p hp
  obtain ⟨hvs, hss⟩ := trunc_good k d s hv ht
  have hprev : Timeunit.previous ⟨k, s⟩ = s.pred?.bind (mkTimeunit k) := rfl
  have hnext : Timeunit.next ⟨k, s⟩ = (k._next s).bind (mkTimeunit k) := by
    show (Kind.truncate k s).bind (fun t => (Kind._next k t).bind (mkTimeunit k)) =
      (Kind._next k s).bind (mkTimeunit k)
    rw [hss]
    simp only [Option.some_bind]
  have hlast : Timeunit.last_date ⟨k, s⟩ = (Kind._next k s).bind Date.pred? := rfl
  have h1 : (Timeunit.previous ⟨k, s⟩).bind Timeunit.next =
      (Timeunit.previous ⟨k, s⟩).map (fun _ => (⟨k, s⟩ : Timeunit)) := by
    cases hpd : s.pred? with
    | none =>
      rw [hprev, hpd]
      rfl
    | some e =>
      cases htr : Kind.truncate k e with
      | none =>
        have hprev2 : Timeunit.previous ⟨k, s⟩ = none := by
          rw [hprev, hpd]
          simp only [Option.some_bind]
          unfold mkTimeunit
          rw [htr]
          rfl
        rw [hprev2]
        rfl
      | some t =>
      obtain ⟨hvt, hstt, hnt⟩ := kind_prev_spec k s e t hvs hss hpd htr
      have hprev2 : Timeunit.previous ⟨k, s⟩ = some ⟨k, t⟩ := by
        rw [hprev, hpd]
        simp only [Option.some_bind]
        unfold mkTimeunit
        rw [htr, Option.map_some']
      rw [hprev2]
      simp only [Option.some_bind, Option.map_some']
      show (Kind.truncate k t).bind (fun u => (Kind._next k u).bind (mkTimeunit k)) =
        some ⟨k, s⟩
      rw [show Kind.truncate k t = some t from hstt]
      simp only [Option.some_bind]
      rw [hnt]
      simp only [Option.some_bind]
      unfold mkTimeunit
      rw [show Kind.truncate k s = some s from hss, Option.map_some']
  have h2 : (Timeunit.next ⟨k, s⟩).bind Timeunit.previous =
      (Timeunit.next ⟨k, s⟩).map (fun _ => (⟨k, s⟩ : Timeunit)) := by
    cases hn : Kind._next k s with
    | none =>
      rw [hnext, hn]
      rfl
    | some s' =>
      obtain ⟨hvs', hss', e, hpe, hte⟩ := kind_next_spec k s s' hvs hss hn
      have hnext2 : Timeunit.next ⟨k, s⟩ = some ⟨k, s'⟩ := by
        rw [hnext, hn]
        simp only [Option.some_bind]
        unfold mkTimeunit
        rw [show Kind.truncate k s' = some s' from hss', Option.map_some']
      rw [hnext2]
      simp only [Option.some_bind, Option.map_some']
      show s'.pred?.bind (mkTimeunit k) = some ⟨k, s⟩
      rw [hpe]
      simp only [Option.some_bind]
      unfold mkTimeunit
      rw [hte, Option.map_some']
  have h3 : (Timeunit.last_date ⟨k, s⟩).bind Date.succ? =
      (Timeunit.next ⟨k, s⟩).map Timeunit.first_date := by
    cases hn : Kind._next k s with
    | none =>
      rw [hnext, hlast, hn]
      rfl
    | some s' =>
      obtain ⟨hvs', hss', e, hpe, hte⟩ := kind_next_spec k s s' hvs hss hn
      have hnext2 : Timeunit.next ⟨k, s⟩ = some ⟨k, s'⟩ := by
        rw [hnext, hn]
        simp only [Option.some_bind]
        unfold mkTimeunit
        rw [show Kind.truncate k s' = some s' from hss', Option.map_some']
      rw [hnext2, hlast, hn]
      simp only [Option.some_bind, Option.map_some']
      rw [hpe]
      simp only [Option.some_bind]
      rw [pred?_succ? s' e hvs' hpe]
      rfl
  exact ⟨h1, h2, h3⟩

/-- Counterexample to C2 as stated: the Week period at the calendar
minimum 0001-01-01 exists, but its `previous` raises
(`date.min - timedelta(1)` overflows); the Day period at 9999-12-31
exists but its `next` raises; and strictly inside the calendar range the
Day period at 1000-01-01 exists but its `previous` raises, because
re-truncating 0999-12-31 fails in the `strftime`/`strptime` round-trip.
So `p.previous.next == p` does not hold for every Period. -/
theorem adjacency_cex :
    (mkTimeunit Kind.week ⟨1, 1, 1⟩ = some ⟨Kind.week, ⟨1, 1, 1⟩⟩ ∧
      Timeunit.previous ⟨Kind.week, ⟨1, 1, 1⟩⟩ = none) ∧
    (mkTimeunit Kind.day ⟨9999, 12, 31⟩ = some ⟨Kind.day, ⟨9999, 12, 31⟩⟩ ∧
      Timeunit.next ⟨Kind.day, ⟨9999, 12, 31⟩⟩ = none) ∧
    (mkTimeunit Kind.day ⟨1000, 1, 1⟩ = some ⟨Kind.day, ⟨1000, 1, 1⟩⟩ ∧
      Timeunit.previous ⟨Kind.day, ⟨1000, 1, 1⟩⟩ = none) := by
  refine ⟨⟨?_, ?_⟩, ⟨?_, ?_⟩, ?_, ?_⟩ <;> decide

/-- Witness for the amended C2, at the Month kind and 2021-08-15
(stored start 2021-08-01). -/
theorem adjacency_witness :
    Date.Valid ⟨2021, 8, 15⟩ ∧
    mkTimeunit Kind.month ⟨2021, 8, 15⟩ = some ⟨Kind.month, ⟨2021, 8, 1⟩⟩ ∧
    ((Timeunit.previous ⟨Kind.month, ⟨2021, 8, 1⟩⟩).bind Timeunit.next =
        (Timeunit.previous ⟨Kind.month, ⟨2021, 8, 1⟩⟩).map
          (fun _ => (⟨Kind.month, ⟨2021, 8, 1⟩⟩ : Timeunit)) ∧
      (Timeunit.next ⟨Kind.month, ⟨2021, 8, 1⟩⟩).bind Timeunit.previous =
        (Timeunit.next ⟨Kind.month, ⟨2021, 8, 1⟩⟩).map
          (fun _ => (⟨Kind.month, ⟨2021, 8, 1⟩⟩ : Timeunit)) ∧
      (Timeunit.last_date ⟨Kind.month, ⟨2021, 8, 1⟩⟩).bind Date.succ? =
        (Timeunit.next ⟨Kind.month, ⟨2021, 8, 1⟩⟩).map Timeunit.first_date) :=
  ⟨by decide, rfl,
    adjacency Kind.month ⟨2021, 8, 15⟩ (by decide) ⟨Kind.month, ⟨2021, 8, 1⟩⟩ rfl⟩

/-- C5 (amended): the canonical string of a Quarter period is the year
followed by `Q` followed by `start_month // 3`, a zero-based quarter index
equal to `(original_month - 1) // 3`, which ranges over 0..3 - not the
1..4 numbering the claim states (a period covering July-September renders
with quarter number 2). -/
theorem quarter_to_str_spec (d : Date) (hv : d.Valid) (p : Timeunit)
    (hp : mkTimeunit Kind.quarter d = some p) :
    p.to_str = toString d.year ++ "Q" ++ toString ((d.month - 1) / 3) ∧
    (d.month - 1) / 3 ≤ 3 := by
  obtain ⟨s, ht, rfl⟩ := mkTimeunit_inv Kind.quarter d p hp
  simp only [Kind.truncate] at ht
  injection ht with ht'
  subst ht'
  constructor
  · show toString d.year ++ "Q" ++ toString ((3 * ((d.month - 1) / 3) + 1) / 3) = _
    rw [show (3 * ((d.month - 1) / 3) + 1) / 3 = (d.month - 1) / 3 from by omega]
  · have hm : d.month ≤ 12 := hv.2.2.2.1
    omega

/-- Counterexample to C5 as stated: the Quarter period starting 2021-07-01
(July-September) renders as `2021Q2`, not `2021Q3`; the claimed 1..4
numbering does not match the code's `dt.month // 3`. -/
theorem quarter_to_str_cex :
    (mkTimeunit Kind.quarter ⟨2021, 7, 1⟩).map Timeunit.to_str = some "2021Q2" ∧
    "2021Q2" ≠ "2021Q3" :=
  ⟨rfl, by decide⟩

/-- Witness for the amended C5, at 2021-08-15 (truncating to 2021-07-01,
rendered `2021Q2`). -/
theorem quarter_to_str_witness :
    Date.Valid ⟨2021, 8, 15⟩ ∧
    mkTimeunit Kind.quarter ⟨2021, 8, 15⟩ = some ⟨Kind.quarter, ⟨2021, 7, 1⟩⟩ ∧
    (Timeunit.to_str ⟨Kind.quarter, ⟨2021, 7, 1⟩⟩ =
        toString (2021 : Nat) ++ "Q" ++ toString (2 : Nat) ∧
      (8 - 1) / 3 ≤ 3) :=
  ⟨by decide, rfl,
    quarter_to_str_spec ⟨2021, 8, 15⟩ (by decide) ⟨Kind.quarter, ⟨2021, 7, 1⟩⟩ rfl⟩

/-- C6 (amended): `multiplier()` returns the smallest power of ten greater
than *or equal to* `max(1, largest registered kind code)` - not strictly
greater.  For the built-in registry (largest code 9) this is 10, but when
the largest registered code is 0 or 1 the multiplier is 1, not the 10 the
claim states. -/
theorem multiplier_spec (codes : List Nat) (j : Nat)
    (hj : codes.foldl Nat.max 1 ≤ 10 ^ j) :
    codes.foldl Nat.max 1 ≤ registryMultiplier codes ∧
    registryMultiplier codes ≤ 10 ^ j ∧
    (∃ i, registryMultiplier codes = 10 ^ i) ∧
    multiplier = 10 ∧ registryMultiplier [0] = 1 ∧ registryMultiplier [1] = 1 := by
  refine ⟨?_, ?_, ⟨_, rfl⟩, multiplier_eq, ?_, ?_⟩
  · unfold registryMultiplier
    exact (Nat.le_pow_iff_clog_le (by norm_num)).mpr le_rfl
  · unfold registryMultiplier
    exact Nat.pow_le_pow_right (by norm_num) ((Nat.le_pow_iff_clog_le (by norm_num)).mp hj)
  · unfold registryMultiplier
    rw [show ([0] : List Nat).foldl Nat.max 1 = 1 from by decide,
      Nat.clog_of_right_le_one le_rfl 10]
    norm_num
  · unfold registryMultiplier
    rw [show ([1] : List Nat).foldl Nat.max 1 = 1 from by decide,
      Nat.clog_of_right_le_one le_rfl 10]
    norm_num

/-- Witness for the amended C6, at the built-in registry codes and the
power 10^1. -/
theorem multiplier_spec_witness :
    ([1, 3, 5, 7, 9] : List Nat).foldl Nat.max 1 ≤ 10 ^ 1 ∧
    (([1, 3, 5, 7, 9] : List Nat).foldl Nat.max 1 ≤ registryMultiplier [1, 3, 5, 7, 9] ∧
      registryMultiplier [1, 3, 5, 7, 9] ≤ 10 ^ 1 ∧
      (∃ i, registryMultiplier [1, 3, 5, 7, 9] = 10 ^ i) ∧
      multiplier = 10 ∧ registryMultiplier [0] = 1 ∧ registryMultiplier [1] = 1) :=
  ⟨by decide, multiplier_spec [1, 3, 5, 7, 9] 1 (by decide)⟩

/-- Counterexample to C6 as stated: a registry whose largest code is 1
yields multiplier 1, not 10; and a registry whose largest code is 10
yields multiplier 10, which is not strictly greater than that code. -/
theorem multiplier_cex :
    registryMultiplier [1] = 1 ∧ (1 : Nat) ≠ 10 ∧ registryMultiplier [10] = 10 := by
  refine ⟨?_, by decide, ?_⟩
  · unfold registryMultiplier
    rw [show ([1] : List Nat).foldl Nat.max 1 = 1 from by decide,
      Nat.clog_of_right_le_one le_rfl 10]
    norm_num
  · unfold registryMultiplier
    rw [show ([10] : List Nat).foldl Nat.max 1 = 10 from by decide,
      Nat.clog_of_two_le (by norm_num) (by norm_num)]
    norm_num

/-- C7: two Periods with the same start date compare by integer encoding,
so `p < q` holds iff `p`'s kind code is below `q`'s kind code (the
tie-break is purely the kind code). -/
theorem lt_same_date_iff_kind (k1 k2 : Kind) (s : Date) :
    Timeunit.lt ⟨k1, s⟩ ⟨k2, s⟩ ↔ k1.kind_int < k2.kind_int := by
  unfold Timeunit.lt
  show date_to_int s multiplier + k1.kind_int < date_to_int s multiplier + k2.kind_int ↔ _
  omega

/-- Witness for C7: the Year and Quarter periods anchored at 2021-01-01
compare by kind code (1 < 3). -/
theorem lt_same_date_iff_kind_witness :
    Timeunit.lt ⟨Kind.year, ⟨2021, 1, 1⟩⟩ ⟨Kind.quarter, ⟨2021, 1, 1⟩⟩ ∧
    Kind.year.kind_int < Kind.quarter.kind_int :=
  ⟨(lt_same_date_iff_kind Kind.year Kind.quarter ⟨2021, 1, 1⟩).mpr (by decide), by decide⟩

/-- C9: with the built-in registry (Year=1, Quarter=3, Month=5, Week=7,
Day=9) the multiplier is 10, and `Day(date(2021,1,1)).to_int()` equals
`20210101 * 10 + 9 == 202101019`. -/
theorem day_encoding_scenario :
    multiplier = 10 ∧
    mkTimeunit Kind.day ⟨2021, 1, 1⟩ = some ⟨Kind.day, ⟨2021, 1, 1⟩⟩ ∧
    Timeunit.to_int ⟨Kind.day, ⟨2021, 1, 1⟩⟩ = 202101019 ∧
    202101019 = 20210101 * 10 + 9 := by
  refine ⟨multiplier_eq, rfl, ?_, by norm_num⟩
  unfold Timeunit.to_int date_to_int
  rw [multiplier_eq]
  norm_num [Kind.kind_int]

/-- C4 (code bug evaluated): `overlaps_with` / `__contains__` accept a bare
date or a Period, but a two-date tuple falls through both `isinstance`
branches of `_get_range` and raises `TypeError` - the module's own
docstring and the repository's tests promise tuple support, and the
`InvalidRangeError` the spec names does not exist in the code.  The bare
date and Period shapes do compute the intersection / inclusion
predicates. -/
theorem range_shapes_eval :
    Timeunit.overlaps_with ⟨Kind.day, ⟨2021, 1, 1⟩⟩
        (RangeArg.pair ⟨2021, 1, 1⟩ ⟨2021, 1, 2⟩) = Except.error PyError.typeError ∧
    Timeunit.contains ⟨Kind.day, ⟨2021, 1, 1⟩⟩
        (RangeArg.pair ⟨2021, 1, 1⟩ ⟨2021, 1, 2⟩) = Except.error PyError.typeError ∧
    Timeunit.overlaps_with ⟨Kind.day, ⟨2021, 1, 1⟩⟩ RangeArg.other =
      Except.error PyError.typeError ∧
    Timeunit.contains ⟨Kind.day, ⟨2021, 1, 1⟩⟩ RangeArg.other =
      Except.error PyError.typeError ∧
    Timeunit.overlaps_with ⟨Kind.day, ⟨2021, 1, 1⟩⟩ (RangeArg.date ⟨2021, 1, 1⟩) =
      Except.ok true ∧
    Timeunit.contains ⟨Kind.day, ⟨2021, 1, 1⟩⟩ (RangeArg.date ⟨2021, 1, 2⟩) =
      Except.ok false ∧
    Timeunit.overlaps_with ⟨Kind.month, ⟨2021, 1, 1⟩⟩
      (RangeArg.unit ⟨Kind.day, ⟨2021, 1, 31⟩⟩) = Except.ok true := by
  refine ⟨rfl, rfl, rfl, rfl, ?_, ?_, ?_⟩ <;> rfl

/-- C8 (amended): decoding an integer whose kind component resolves
succeeds exactly when, in addition, the date digits `value // multiplier`
decode to a valid calendar date AND the resolved kind's truncation
accepts that date (for Year, Month and Day: year at least 1000, because
of the `strftime`/`strptime` round-trip); it then yields a well-formed
Period whose start is the truncated date, even for non-canonical inputs.
Otherwise decoding raises even though the code resolves: `from_int(99)`
(code 9 = Day, invalid date digits) and `from_int(50001011)` (code 1 =
Year, valid date 0500-01-01 but a three-digit year that `strptime`
rejects) both fail. -/
theorem from_int_defensive (val : Nat) (d : Date) (k : Kind) (t : Date)
    (hd : date_from_int val multiplier = some d)
    (hk : lookupKind (val % multiplier) = some k)
    (ht : k.truncate d = some t) :
    from_int val = some ⟨k, t⟩ ∧ k.truncate t = some t := by
  have hvd : d.Valid := by
    unfold date_from_int at hd
    obtain ⟨he, hv'⟩ := mkDate?_some _ _ _ _ hd
    rw [he]
    exact hv'
  obtain ⟨hvt, hst⟩ := trunc_good k d t hvd ht
  refine ⟨?_, hst⟩
  unfold from_int
  rw [hd]
  simp only [Option.some_bind]
  rw [hk]
  simp only [Option.some_bind]
  unfold mkTimeunit
  rw [ht, Option.map_some']

/-- Counterexample to C8 as stated: `from_int(99)` has kind component 9,
which resolves to Day, yet decoding fails because the date digits `9`
decode to year 0, month 0, day 9 - an invalid date; and `from_int(50001011)`
has kind component 1, which resolves to Year, and valid date digits
(0500-01-01), yet decoding still fails because the Year truncation's
`strptime` rejects the three-digit year. -/
theorem from_int_defensive_cex :
    (lookupKind (99 % multiplier) = some Kind.day ∧ from_int 99 = none) ∧
    (lookupKind (50001011 % multiplier) = some Kind.year ∧
      date_from_int 50001011 multiplier = some ⟨500, 1, 1⟩ ∧
      Date.Valid ⟨500, 1, 1⟩ ∧ from_int 50001011 = none) := by
  refine ⟨⟨?_, ?_⟩, ?_, ?_, by decide, ?_⟩
  · rw [multiplier_eq]
    decide
  · unfold from_int
    rw [multiplier_eq]
    decide
  · rw [multiplier_eq]
    decide
  · rw [multiplier_eq]
    decide
  · unfold from_int
    rw [multiplier_eq]
    decide

/-- Witness for the amended C8, at the canonical Day encoding of
2021-01-01. -/
theorem from_int_defensive_witness :
    date_from_int 202101019 multiplier = some ⟨2021, 1, 1⟩ ∧
    lookupKind (202101019 % multiplier) = some Kind.day ∧
    Kind.day.truncate ⟨2021, 1, 1⟩ = some ⟨2021, 1, 1⟩ ∧
    (from_int 202101019 = some ⟨Kind.day, ⟨2021, 1, 1⟩⟩ ∧
      Kind.day.truncate ⟨2021, 1, 1⟩ = some ⟨2021, 1, 1⟩) := by
  have h1 : date_from_int 202101019 multiplier = some ⟨2021, 1, 1⟩ := by
    rw [show date_from_int 202101019 multiplier =
      date_from_int 202101019 10 from by rw [multiplier_eq]]
    decide
  have h2 : lookupKind (202101019 % multiplier) = some Kind.day := by
    rw [multiplier_eq]
    decide
  have h3 : Kind.day.truncate ⟨2021, 1, 1⟩ = some ⟨2021, 1, 1⟩ := by decide
  exact ⟨h1, h2, h3,
    from_int_defensive 202101019 ⟨2021, 1, 1⟩ Kind.day ⟨2021, 1, 1⟩ h1 h2 h3⟩

/-- C10: for every Period `p`, `repr(p)` raises `AttributeError` and never
returns a string: the source reads `self.__class__.__name`, which name
mangling turns into `_Timeunit__name`, an attribute no class defines. -/
theorem repr_always_raises (p : Timeunit) :
    Timeunit.repr p = Except.error PyError.attributeError := rfl
